import Mathlib

/-!
Verification development for the Smart-Verifica PDF viewer
(`src/front/src/Components/others/pdf-viewer/WorkerPDFViewer.js`) and the
Express upload router (`src/unnamed/part_000`).

The JavaScript code is shallowly embedded: numeric canvas coordinates are
rationals (ℚ), JavaScript's `%` remainder on integers is `Int.tmod`
(truncating, sign of the dividend), `parseInt` results that may be `NaN`
are `Option Int` with `none` standing for `NaN`, and the DOM/canvas side
effects are reified as explicit operation lists.
-/

namespace SmartVerifica

/-- A page tag on a vertices group: a numeric page, the string `"all"`, or
some other non-numeric string (whose `parseInt` is `NaN`). -/
inductive PageTag where
  | int (n : Int)
  | all
  | other (s : String)
deriving DecidableEq, Repr

/-- A point; used both for normalized document-space coordinates in [0,1]
and for pixel coordinates on the canvas. -/
structure Vertex where
  x : ℚ
  y : ℚ
deriving DecidableEq, Repr

/-- A highlightable region: `{ page, key, vertices }` as supplied to the
viewer in `verticesGroups`. -/
structure VerticesGroup where
  page : PageTag
  key : String
  vertices : List Vertex
deriving DecidableEq, Repr

/-- The viewport passed to `drawVertices`: canvas width, height and scale. -/
structure Viewport where
  width : ℚ
  height : ℚ
  scale : ℚ
deriving DecidableEq, Repr

/-- JavaScript `(r % 360 + 360) % 360`, the rotation normalization used in
both `handleOverlayMouseMove` (line 115) and `drawVertices` (line 270).
JavaScript `%` is the truncating remainder, i.e. `Int.tmod`. -/
def normalizeRotation (r : Int) : Int :=
  (r.tmod 360 + 360).tmod 360

/-- The draw-time transform of `drawVertices` (lines 283-300): maps a
normalized vertex `(x, y)` to pixel coordinates `(adjustedX, adjustedY)`
on a `W × H` viewport, switching on the normalized rotation angle. -/
def drawTransform (rotationAngle : Int) (W H : ℚ) (v : Vertex) : Vertex :=
  let normalizedAngle := normalizeRotation rotationAngle
  if normalizedAngle = 90 then ⟨(1 - v.y) * W, v.x * H⟩
  else if normalizedAngle = 180 then ⟨(1 - v.x) * W, (1 - v.y) * H⟩
  else if normalizedAngle = 270 then ⟨v.y * W, (1 - v.x) * H⟩
  else ⟨v.x * W, v.y * H⟩

/-- The cursor-normalization transform of `handleOverlayMouseMove`
(lines 128-145): maps a mouse position `(mouseX, mouseY)` on a `W × H`
overlay rectangle to normalized document-space coordinates
`(normalizedX, normalizedY)`, switching on the normalized rotation. -/
def cursorNormalize (rotation : Int) (W H : ℚ) (mouseX mouseY : ℚ) : Vertex :=
  let normalizedRotation := normalizeRotation rotation
  if normalizedRotation = 90 then ⟨mouseY / H, (W - mouseX) / W⟩
  else if normalizedRotation = 180 then ⟨(W - mouseX) / W, (H - mouseY) / H⟩
  else if normalizedRotation = 270 then ⟨(H - mouseY) / H, mouseX / W⟩
  else ⟨mouseX / W, mouseY / H⟩

/-- `rotateLeft` (lines 375-377): `setRotation((r - 90) % 360)` with
JavaScript's truncating `%`. -/
def rotateLeft (r : Int) : Int := (r - 90).tmod 360

/-- `rotateRight` (lines 379-381): `setRotation((r + 90) % 360)` with
JavaScript's truncating `%`. -/
def rotateRight (r : Int) : Int := (r + 90).tmod 360

/-- A rotate toolbar action. -/
inductive RotAction where
  | left
  | right
deriving DecidableEq, Repr

/-- Apply one rotate action to the stored rotation state. -/
def applyRot : RotAction → Int → Int
  | .left, r => rotateLeft r
  | .right, r => rotateRight r

/-- Run a sequence of rotate actions on the stored rotation state. -/
def runRot (acts : List RotAction) (r : Int) : Int :=
  acts.foldl (fun s a => applyRot a s) r

end SmartVerifica

namespace SmartVerifica

/-! ### Upload router (`src/unnamed/part_000`): multer `fileFilter` -/

/-- The alternatives of the regex `/pdf|xml|png|jpg|jpeg|/i` (line 26 of
the router). The trailing `|` contributes a sixth, empty alternative. -/
def mimeAlternatives : List String := ["pdf", "xml", "png", "jpg", "jpeg", ""]

/-- The characters of a string lowered character-wise; models the `i`
flag of the regex (case-insensitive matching). -/
def lowerData (s : String) : List Char := s.data.map Char.toLower

/-- `filetypes.test(mimetype)`: a JavaScript regex of plain alternatives
matches a string iff some alternative occurs as a substring; the `i` flag
makes the match case-insensitive. -/
def regexTest (mimetype : String) : Bool :=
  mimeAlternatives.any (fun p => decide (lowerData p <:+: lowerData mimetype))

/-- The multer `fileFilter` (lines 25-35 of the router): accepts
(`cb(null, true)`) when the regex matches the mimetype, otherwise rejects
with the French error message. -/
def fileFilter (mimetype : String) : Except String Bool :=
  if regexTest mimetype then Except.ok true
  else Except.error "Erreur : Seuls les fichiers PDF et XML sont acceptés"

/-! ### Viewer controller state and transitions -/

/-- `MAX_SCALE` (line 364). -/
def MAX_SCALE : ℚ := 5

/-- `MIN_SCALE` (line 365). -/
def MIN_SCALE : ℚ := 1/2

/-- `zoomIn` (lines 367-369): `Math.min(prevScale * 1.2, MAX_SCALE)`. -/
def zoomIn (prevScale : ℚ) : ℚ := min (prevScale * (12/10)) MAX_SCALE

/-- `zoomOut` (lines 371-373): `Math.max(prevScale / 1.2, MIN_SCALE)`. -/
def zoomOut (prevScale : ℚ) : ℚ := max (prevScale / (12/10)) MIN_SCALE

/-- A zoom toolbar action. -/
inductive ZoomAction where
  | zin
  | zout
deriving DecidableEq, Repr

/-- Apply one zoom action to the scale. -/
def applyZoom : ZoomAction → ℚ → ℚ
  | .zin, s => zoomIn s
  | .zout, s => zoomOut s

/-- Run a sequence of zoom actions on the scale. -/
def runZoom (acts : List ZoomAction) (s : ℚ) : ℚ :=
  acts.foldl (fun t a => applyZoom a t) s

/-- `nextPage` (lines 385-387): `Math.min(prevPage + 1, numPages)`. -/
def nextPage (numPages prevPage : Int) : Int := min (prevPage + 1) numPages

/-- `prevPage` (lines 390-392): `Math.max(prevPage - 1, 1)`. -/
def prevPage (p : Int) : Int := max (p - 1) 1

/-- The `showError` state value (lines 35-39): `{ open, message }`. -/
structure ErrorValue where
  open_ : Bool
  message : String
deriving DecidableEq, Repr

/-- `defaultErrorValue` (lines 35-38): closed, empty message. -/
def defaultErrorValue : ErrorValue := ⟨false, ""⟩

/-- The document handle produced by the rendering library; only its
`numPages` field is consumed by the controller. -/
structure PdfDocument where
  numPages : Int
deriving DecidableEq, Repr

/-- The controller state touched by loading: `pdf`, `numPages`,
`loading`, `showError` (lines 25-39). -/
structure ViewerState where
  pdf : Option PdfDocument
  numPages : Int
  loading : Bool
  showError : ErrorValue
deriving DecidableEq, Repr

/-- Outcome of `getPdfBlob` + `getDocument`: either a parsed document or
a thrown error (fetch or parse failure). -/
inductive FetchResult where
  | ok (doc : PdfDocument)
  | err
deriving DecidableEq, Repr

/-- The body of `loadPDF` (lines 66-83): on success stores the document
and its page count; on any thrown error opens the error panel with the
fixed message. -/
def loadPDF (res : FetchResult) (s : ViewerState) : ViewerState :=
  match res with
  | .ok doc => { s with pdf := some doc, numPages := doc.numPages }
  | .err => { s with showError := ⟨true, "Cannot load pdf file!"⟩ }

/-- The load effect (lines 85-93): `setLoading(true)`, then `loadPDF`,
then `.finally(... setLoading(false))` in both outcomes. -/
def loadEffect (res : FetchResult) (s : ViewerState) : ViewerState :=
  { loadPDF res { s with loading := true } with loading := false }

/-- `refreshPDF` (lines 95-103): clears the error state back to
`defaultErrorValue`, then re-runs the load effect. -/
def refreshPDF (res : FetchResult) (s : ViewerState) : ViewerState :=
  loadEffect res { s with showError := defaultErrorValue }

/-! ### External annotation update (`useEffect[verticesGroups]`, lines 246-254) -/

/-- JavaScript `parseInt` applied to a page tag: a numeric page parses to
itself, the string `"all"` and any other non-numeric string yield `NaN`
(modelled as `none`). -/
def parseIntPage : PageTag → Option Int
  | .int n => some n
  | .all => none
  | .other _ => none

/-- Line 247: `(verticesGroups.length > 0) ? parseInt(verticesGroups[0].page) + 1 : 1`.
`NaN + 1` is `NaN`, so the addition maps over the option. -/
def computedTargetPage (groups : List VerticesGroup) : Option Int :=
  match groups with
  | [] => some 1
  | g :: _ => (parseIntPage g.page).map (· + 1)

/-- The overlay redraw scheduled by the `setTimeout` on lines 251-253:
its fixed delay, and the arguments handed to `updateVertices`
(lines 232-243), which forwards them to `drawVertices`. -/
structure ScheduledDraw where
  delay : Nat
  groups : List VerticesGroup
  scrollToView : Bool
  page : Option Int
deriving DecidableEq, Repr

/-- The observable outcome of the `useEffect[verticesGroups]` body:
the page stored by `setCurrentPage`, the scheduled overlay redraw, and
whether the base-page render effect (lines 225-228, keyed on
`currentPage` among others) fires because `currentPage` changed. -/
structure EffectResult where
  newCurrentPage : Option Int
  scheduled : ScheduledDraw
  baseRerender : Bool
deriving DecidableEq, Repr

/-- The `useEffect[verticesGroups]` body (lines 246-254): computes the
target page, stores it via `setCurrentPage`, and schedules
`updateVertices(verticesGroups, true, page)` after a fixed 10ms delay.
The base page bitmap is re-rendered only if the stored `currentPage`
actually changed (React state update keyed on line 228). -/
def verticesGroupsEffect (groups : List VerticesGroup) (oldCurrentPage : Option Int) :
    EffectResult :=
  let page := computedTargetPage groups
  { newCurrentPage := page
    scheduled := { delay := 10, groups := groups, scrollToView := true, page := page }
    baseRerender := page != oldCurrentPage }

/-- The invariant on `currentPage` maintained by `nextPage`/`prevPage`
when `1 ≤ currentPage ≤ numPages` holds: the stored value is an actual
number in `[1, numPages]`. -/
def currentPageInRange (p : Option Int) (numPages : Int) : Prop :=
  ∃ k, p = some k ∧ 1 ≤ k ∧ k ≤ numPages

/-! ### Overlay renderer (`drawVertices`, lines 257-343, and
`scrollToVertex`, lines 345-362) -/

/-- A canvas-2D operation issued by `drawVertices`. `label` stands for
the background-rectangle-plus-text pair drawn above the first vertex
when a label is supplied (its exact extent depends on the external
`measureText`, so only the label text and the first vertex's position
are recorded). -/
inductive DrawOp where
  | clearRect (x y w h : ℚ)
  | save
  | beginPath
  | moveTo (x y : ℚ)
  | lineTo (x y : ℚ)
  | closePath
  | fill (style : String)
  | stroke
  | label (t : String) (x y : ℚ)
  | restore
deriving DecidableEq, Repr

/-- `scrollToVertex` (lines 345-362): the final `(left, top)` target of
the smooth `container.scrollTo`, i.e. the vertex minus the margin,
clamped below at 0 in each coordinate (`Math.max(v, 0)`, written with a
decidable test so concrete instances evaluate). -/
def scrollToVertex (x y margin : ℚ) : ℚ × ℚ :=
  (if x - margin ≤ 0 then 0 else x - margin,
   if y - margin ≤ 0 then 0 else y - margin)

/-- Identifies the string tag `"all"`. -/
def isAllPage : PageTag → Bool
  | .all => true
  | _ => false

/-- The page filter on line 263:
`(vertice.page === 'all') || parseInt(vertice.page) === page - 1`. -/
def shouldDrawGroup (g : VerticesGroup) (page : Int) : Bool :=
  isAllPage g.page || (parseIntPage g.page == some (page - 1))

/-- The path trace of the vertex loop (lines 279-312): move-to the first
transformed vertex, line-to the rest. -/
def pathOps : List Vertex → List DrawOp
  | [] => []
  | v :: vs => DrawOp.moveTo v.x v.y :: vs.map (fun u => DrawOp.lineTo u.x u.y)

/-- The canvas operations issued for one drawn group (lines 264-340):
save, begin a path, trace the transformed vertices, close the path, fill
with the translucent highlight color, stroke, draw the label if one was
supplied, restore. -/
def groupOps (rot : Int) (W H : ℚ) (text : String) (g : VerticesGroup) : List DrawOp :=
  let tv := g.vertices.map (drawTransform rot W H)
  [DrawOp.save, DrawOp.beginPath] ++ pathOps tv ++
    [DrawOp.closePath, DrawOp.fill "rgba(0, 0, 255, 0.2)", DrawOp.stroke] ++
    (match tv.head? with
      | some fv => if text = "" then [] else [DrawOp.label text fv.x fv.y]
      | none => []) ++
    [DrawOp.restore]

/-- The `scrollToVertex` calls issued for one drawn group: lines 309-311
call it inside the vertex loop for every vertex, whenever the input
groups list has exactly one element and `scrollToView` is set. -/
def groupScrolls (rot : Int) (W H : ℚ) (groupsLength : Nat) (scrollToView : Bool)
    (g : VerticesGroup) : List (ℚ × ℚ) :=
  if groupsLength = 1 ∧ scrollToView = true then
    (g.vertices.map (drawTransform rot W H)).map (fun t => scrollToVertex t.x t.y 50)
  else []

/-- The observable effects of one `drawVertices` call: the canvas
operations in order, and the successive smooth-scroll targets. -/
structure DrawResult where
  ops : List DrawOp
  scrolls : List (ℚ × ℚ)
deriving DecidableEq, Repr

/-- `drawVertices` (lines 257-343): clears the whole canvas, then for
each group passing the page filter issues its path/fill/stroke/label
operations and (under the single-group scroll condition) its
`scrollToVertex` calls. -/
def drawVertices (viewport : Viewport) (groups : List VerticesGroup)
    (rotationAngle : Int) (scrollToView : Bool) (text : String) (page : Int) :
    DrawResult :=
  { ops := DrawOp.clearRect 0 0 viewport.width viewport.height ::
      (groups.map (fun g =>
        if shouldDrawGroup g page then
          groupOps rotationAngle viewport.width viewport.height text g
        else [])).flatten
    scrolls := (groups.map (fun g =>
        if shouldDrawGroup g page then
          groupScrolls rotationAngle viewport.width viewport.height
            groups.length scrollToView g
        else [])).flatten }

/-- C1: for every rotation in {0, 90, 180, 270}, positive viewport
dimensions and any normalized point (x, y) in [0,1]×[0,1], feeding the
pixel point produced by the draw-time transform of `drawVertices` into the
cursor-normalization transform of `handleOverlayMouseMove` returns
exactly (x, y): the two transform conventions are mutual inverses
(exactly, over ℚ, hence within any floating-point tolerance). -/
theorem draw_cursor_roundtrip (rot : Int) (W H x y : ℚ)
    (hrot : rot = 0 ∨ rot = 90 ∨ rot = 180 ∨ rot = 270)
    (hW : 0 < W) (hH : 0 < H)
    (hx0 : 0 ≤ x) (hx1 : x ≤ 1) (hy0 : 0 ≤ y) (hy1 : y ≤ 1) :
    (cursorNormalize rot W H
        (drawTransform rot W H ⟨x, y⟩).x (drawTransform rot W H ⟨x, y⟩).y).x = x ∧
    (cursorNormalize rot W H
        (drawTransform rot W H ⟨x, y⟩).x (drawTransform rot W H ⟨x, y⟩).y).y = y := by
  have hW' : W ≠ 0 := ne_of_gt hW
  have hH' : H ≠ 0 := ne_of_gt hH
  have h0 : normalizeRotation 0 = 0 := by decide
  have h90 : normalizeRotation 90 = 90 := by decide
  have h180 : normalizeRotation 180 = 180 := by decide
  have h270 : normalizeRotation 270 = 270 := by decide
  rcases hrot with h | h | h | h <;> subst h <;>
    simp only [drawTransform, cursorNormalize, h0, h90, h180, h270] <;>
    norm_num <;> refine ⟨?_, ?_⟩ <;> field_simp <;> ring

/-- Witness for C1 at rotation 90, W = 2, H = 3, (x, y) = (1/3, 1/4). -/
theorem draw_cursor_roundtrip_witness :
    ((90 : Int) = 0 ∨ (90 : Int) = 90 ∨ (90 : Int) = 180 ∨ (90 : Int) = 270) ∧
    (0 : ℚ) < 2 ∧ (0 : ℚ) < 3 ∧
    (0 : ℚ) ≤ 1/3 ∧ (1/3 : ℚ) ≤ 1 ∧ (0 : ℚ) ≤ 1/4 ∧ (1/4 : ℚ) ≤ 1 ∧
    ((cursorNormalize 90 2 3
        (drawTransform 90 2 3 ⟨1/3, 1/4⟩).x (drawTransform 90 2 3 ⟨1/3, 1/4⟩).y).x = 1/3 ∧
     (cursorNormalize 90 2 3
        (drawTransform 90 2 3 ⟨1/3, 1/4⟩).x (drawTransform 90 2 3 ⟨1/3, 1/4⟩).y).y = 1/4) :=
  ⟨by norm_num, by norm_num, by norm_num, by norm_num, by norm_num, by norm_num, by norm_num,
    draw_cursor_roundtrip 90 2 3 (1/3) (1/4) (by norm_num) (by norm_num) (by norm_num)
      (by norm_num) (by norm_num) (by norm_num) (by norm_num)⟩

/-- C2 counterexample: a single `rotateLeft` from the initial rotation 0
stores −90, which is not an element of {0, 90, 180, 270}: JavaScript's
`%` keeps the sign of the dividend, so the rotate operations do not
normalize into [0, 360). -/
theorem rotateLeft_not_normalized :
    rotateLeft 0 = -90 ∧
    rotateLeft 0 ≠ 0 ∧ rotateLeft 0 ≠ 90 ∧ rotateLeft 0 ≠ 180 ∧ rotateLeft 0 ≠ 270 := by
  decide

/-- C2 (amended): after any sequence of rotateLeft/rotateRight actions
starting from the initial rotation 0, the stored rotation is a multiple
of 90 in {−270, −180, −90, 0, 90, 180, 270} (not necessarily in
[0, 360)), and the normalization `((r % 360) + 360) % 360` applied at
every use site lands in {0, 90, 180, 270}. -/
theorem runRot_mem (acts : List RotAction) :
    runRot acts 0 ∈ ([-270, -180, -90, 0, 90, 180, 270] : List Int) ∧
    normalizeRotation (runRot acts 0) ∈ ([0, 90, 180, 270] : List Int) := by
  have key : ∀ (acts : List RotAction) (r : Int),
      r ∈ ([-270, -180, -90, 0, 90, 180, 270] : List Int) →
      runRot acts r ∈ ([-270, -180, -90, 0, 90, 180, 270] : List Int) := by
    intro acts
    induction acts with
    | nil => intro r hr; simpa [runRot] using hr
    | cons a tl ih =>
      intro r hr
      have hstep : applyRot a r ∈ ([-270, -180, -90, 0, 90, 180, 270] : List Int) := by
        cases a <;> fin_cases hr <;> decide
      simpa [runRot, List.foldl_cons] using ih (applyRot a r) hstep
  have h1 : runRot acts 0 ∈ ([-270, -180, -90, 0, 90, 180, 270] : List Int) :=
    key acts 0 (by decide)
  refine ⟨h1, ?_⟩
  have h2 := h1
  simp only [List.mem_cons, List.not_mem_nil, or_false] at h2
  rcases h2 with h | h | h | h | h | h | h <;> rw [h] <;> decide

/-- C3: the regex `/pdf|xml|png|jpg|jpeg|/i` ends in an empty alternative,
so it matches every mimetype string; the multer `fileFilter` therefore
accepts every file and its rejection branch is unreachable, despite the
error message claiming only PDF and XML are accepted. -/
theorem fileFilter_accepts_everything (mimetype : String) :
    fileFilter mimetype = Except.ok true := by
  have hmatch : regexTest mimetype = true := by
    have hnil : lowerData "" = [] := by decide
    have hempty : lowerData "" <:+: lowerData mimetype := by
      rw [hnil]; exact ⟨[], lowerData mimetype, by simp⟩
    simp only [regexTest, mimeAlternatives, List.any_cons, List.any_nil,
      Bool.or_eq_true, decide_eq_true_eq]
    tauto
  simp [fileFilter, hmatch]

/-- C8: starting from any scale in [0.5, 5.0], every sequence of zoomIn
and zoomOut operations keeps the scale in [0.5, 5.0]: zoomIn multiplies
by 1.2 and clamps above at 5.0, zoomOut divides by 1.2 and clamps below
at 0.5. -/
theorem zoom_scale_invariant (acts : List ZoomAction) (s : ℚ)
    (hlo : 1/2 ≤ s) (hhi : s ≤ 5) :
    1/2 ≤ runZoom acts s ∧ runZoom acts s ≤ 5 := by
  induction acts generalizing s with
  | nil => exact ⟨hlo, hhi⟩
  | cons a tl ih =>
    have hstep : 1/2 ≤ applyZoom a s ∧ applyZoom a s ≤ 5 := by
      cases a with
      | zin =>
        constructor
        · exact le_min (by nlinarith) (by norm_num [MAX_SCALE])
        · exact min_le_right _ _
      | zout =>
        constructor
        · exact le_max_right _ _
        · exact max_le (by nlinarith) (by norm_num [MIN_SCALE])
    simpa [runZoom, List.foldl_cons] using ih (applyZoom a s) hstep.1 hstep.2

/-- Witness for C8: from the initial scale 1.5, one zoomIn stays in
[0.5, 5.0]. -/
theorem zoom_scale_invariant_witness :
    (1/2 : ℚ) ≤ 3/2 ∧ (3/2 : ℚ) ≤ 5 ∧
    (1/2 ≤ runZoom [ZoomAction.zin] (3/2) ∧ runZoom [ZoomAction.zin] (3/2) ≤ 5) :=
  ⟨by norm_num, by norm_num,
    zoom_scale_invariant [ZoomAction.zin] (3/2) (by norm_num) (by norm_num)⟩

/-- C9: with numPages = 3 and currentPage = 1, three nextPage calls reach
page 3 and a fourth keeps it at 3; and prevPage never takes the current
page below 1. -/
theorem page_navigation_clamps :
    (nextPage 3)^[3] 1 = 3 ∧ (nextPage 3)^[4] 1 = 3 ∧
    ∀ p : Int, 1 ≤ prevPage p := by
  refine ⟨by decide, by decide, fun p => ?_⟩
  exact le_max_right _ _

/-- C10: when the document load fails, the error panel is shown with the
fixed message and loading ends false; on success, numPages is set from
the loaded document and loading ends false; the reload action first
clears the error state and then retries the same load effect. -/
theorem load_error_handling (s : ViewerState) (doc : PdfDocument) :
    (loadEffect FetchResult.err s).showError.open_ = true ∧
    (loadEffect FetchResult.err s).showError.message = "Cannot load pdf file!" ∧
    (loadEffect FetchResult.err s).loading = false ∧
    (loadEffect (FetchResult.ok doc) s).numPages = doc.numPages ∧
    (loadEffect (FetchResult.ok doc) s).pdf = some doc ∧
    (loadEffect (FetchResult.ok doc) s).loading = false ∧
    (loadEffect (FetchResult.ok doc) s).showError = s.showError ∧
    (∀ res, refreshPDF res s = loadEffect res { s with showError := defaultErrorValue }) ∧
    (refreshPDF (FetchResult.ok doc) s).showError = defaultErrorValue := by
  refine ⟨rfl, rfl, rfl, rfl, rfl, rfl, rfl, fun res => rfl, ?_⟩
  simp [refreshPDF, loadEffect, loadPDF]

/-- C4: a new verticesGroups set makes the controller store page 1 when
the set is empty and (first group's page + 1) when it is non-empty with
a numeric page; the overlay redraw is scheduled with the fixed 10ms
delay, scroll-into-view set, targeting exactly the stored page; and when
the computed page equals the current page the base page bitmap is not
re-rendered. -/
theorem verticesGroups_update (groups : List VerticesGroup) (old : Option Int) :
    (verticesGroupsEffect groups old).scheduled.delay = 10 ∧
    (verticesGroupsEffect groups old).scheduled.scrollToView = true ∧
    (verticesGroupsEffect groups old).scheduled.groups = groups ∧
    (verticesGroupsEffect groups old).scheduled.page =
      (verticesGroupsEffect groups old).newCurrentPage ∧
    (groups = [] → (verticesGroupsEffect groups old).newCurrentPage = some 1) ∧
    (∀ g rest n, groups = g :: rest → g.page = PageTag.int n →
      (verticesGroupsEffect groups old).newCurrentPage = some (n + 1)) ∧
    ((verticesGroupsEffect groups old).newCurrentPage = old →
      (verticesGroupsEffect groups old).baseRerender = false) := by
  refine ⟨rfl, rfl, rfl, rfl, ?_, ?_, ?_⟩
  · intro h; subst h; rfl
  · intro g rest n hgs hpage
    subst hgs
    simp [verticesGroupsEffect, computedTargetPage, hpage, parseIntPage]
  · intro h
    simp only [verticesGroupsEffect] at h ⊢
    simp [h]

/-- Witness for C4 on a one-group set tagged to page 0 with the current
page already 1: the controller stores page 1 and schedules the redraw
after 10ms without re-rendering the base bitmap. -/
theorem verticesGroups_update_witness :
    (verticesGroupsEffect [⟨PageTag.int 0, "k", []⟩] (some 1)).scheduled.delay = 10 ∧
    (verticesGroupsEffect [⟨PageTag.int 0, "k", []⟩] (some 1)).newCurrentPage = some 1 ∧
    (verticesGroupsEffect [⟨PageTag.int 0, "k", []⟩] (some 1)).baseRerender = false :=
  ⟨(verticesGroups_update [⟨PageTag.int 0, "k", []⟩] (some 1)).1,
    (verticesGroups_update [⟨PageTag.int 0, "k", []⟩] (some 1)).2.2.2.2.2.1
      ⟨PageTag.int 0, "k", []⟩ [] 0 rfl rfl,
    (verticesGroups_update [⟨PageTag.int 0, "k", []⟩] (some 1)).2.2.2.2.2.2
      ((verticesGroups_update [⟨PageTag.int 0, "k", []⟩] (some 1)).2.2.2.2.2.1
        ⟨PageTag.int 0, "k", []⟩ [] 0 rfl rfl)⟩

/-- C5: when the first group's page field is `"all"` or any other
non-numeric string, `parseInt` yields `NaN` and `NaN + 1 = NaN`, so the
controller stores `NaN` as the current page; no clamping to
[1, numPages] is applied, so the `currentPage ∈ [1, numPages]` invariant
maintained by nextPage/prevPage is violated. -/
theorem verticesGroups_update_nan (g : VerticesGroup) (rest : List VerticesGroup)
    (old : Option Int) (numPages : Int)
    (h : g.page = PageTag.all ∨ ∃ s, g.page = PageTag.other s) :
    (verticesGroupsEffect (g :: rest) old).newCurrentPage = none ∧
    ¬ currentPageInRange (verticesGroupsEffect (g :: rest) old).newCurrentPage numPages := by
  have hparse : parseIntPage g.page = none := by
    rcases h with h | ⟨s, h⟩ <;> rw [h] <;> rfl
  have hnone : (verticesGroupsEffect (g :: rest) old).newCurrentPage = none := by
    simp [verticesGroupsEffect, computedTargetPage, hparse]
  refine ⟨hnone, ?_⟩
  rw [hnone]
  rintro ⟨k, hk, -⟩
  exact Option.noConfusion hk

/-- Witness for C5: the group `{page: "all"}` drives the stored current
page to `NaN` (`none`), outside [1, 3]. -/
theorem verticesGroups_update_nan_witness :
    ((⟨PageTag.all, "k", []⟩ : VerticesGroup).page = PageTag.all ∨
      ∃ s, (⟨PageTag.all, "k", []⟩ : VerticesGroup).page = PageTag.other s) ∧
    ((verticesGroupsEffect [⟨PageTag.all, "k", []⟩] (some 2)).newCurrentPage = none ∧
      ¬ currentPageInRange
        (verticesGroupsEffect [⟨PageTag.all, "k", []⟩] (some 2)).newCurrentPage 3) :=
  ⟨Or.inl rfl,
    verticesGroups_update_nan ⟨PageTag.all, "k", []⟩ [] (some 2) 3 (Or.inl rfl)⟩

/-- C6 counterexample: `drawVertices` calls `scrollToVertex` for every
vertex of the single drawn group, so the last smooth-scroll call — the
one that takes effect — targets the *last* transformed vertex minus the
margin (clamped at 0), not the first. On a 100×100 viewport, rotation 0,
page 1, one group on page 0 with vertices (0.1, 0.1) and (0.9, 0.9), the
final scroll target is (40, 40) while the first transformed vertex gives
(0, 0). -/
theorem drawVertices_scroll_counterexample :
    (drawVertices ⟨100, 100, 1⟩
        [⟨PageTag.int 0, "k", [⟨1/10, 1/10⟩, ⟨9/10, 9/10⟩]⟩] 0 true "" 1).scrolls.getLast? =
      some (40, 40) ∧
    scrollToVertex (drawTransform 0 100 100 ⟨1/10, 1/10⟩).x
        (drawTransform 0 100 100 ⟨1/10, 1/10⟩).y 50 = (0, 0) ∧
    (drawVertices ⟨100, 100, 1⟩
        [⟨PageTag.int 0, "k", [⟨1/10, 1/10⟩, ⟨9/10, 9/10⟩]⟩] 0 true "" 1).scrolls.getLast? ≠
      some (scrollToVertex (drawTransform 0 100 100 ⟨1/10, 1/10⟩).x
        (drawTransform 0 100 100 ⟨1/10, 1/10⟩).y 50) := by
  have h0 : normalizeRotation 0 = 0 := by decide
  have hd : shouldDrawGroup ⟨PageTag.int 0, "k", [⟨1/10, 1/10⟩, ⟨9/10, 9/10⟩]⟩ 1 = true := by
    decide
  have hs : (drawVertices ⟨100, 100, 1⟩
      [⟨PageTag.int 0, "k", [⟨1/10, 1/10⟩, ⟨9/10, 9/10⟩]⟩] 0 true "" 1).scrolls =
      [(0, 0), (40, 40)] := by
    norm_num [drawVertices, groupScrolls, hd, drawTransform, h0, scrollToVertex]
  have hfirst : scrollToVertex (drawTransform 0 100 100 ⟨1/10, 1/10⟩).x
      (drawTransform 0 100 100 ⟨1/10, 1/10⟩).y 50 = (0, 0) := by
    norm_num [scrollToVertex, drawTransform, h0]
  refine ⟨by rw [hs]; rfl, hfirst, ?_⟩
  rw [hs, hfirst]
  norm_num

/-- C6 (amended): when `scrollIntoView` is true and the groups argument
has exactly one group, which passes the page filter, `drawVertices`
issues one smooth `scrollToVertex` call per transformed vertex (each the
vertex minus the fixed margin 50, clamped at 0), so the final scroll
target is the *last* transformed vertex minus the margin, clamped at 0. -/
theorem drawVertices_scroll_single_group (viewport : Viewport) (g : VerticesGroup)
    (rot : Int) (text : String) (page : Int)
    (hdraw : shouldDrawGroup g page = true) :
    (drawVertices viewport [g] rot true text page).scrolls =
      (g.vertices.map (drawTransform rot viewport.width viewport.height)).map
        (fun t => scrollToVertex t.x t.y 50) ∧
    (drawVertices viewport [g] rot true text page).scrolls.getLast? =
      ((g.vertices.map (drawTransform rot viewport.width viewport.height)).map
        (fun t => scrollToVertex t.x t.y 50)).getLast? := by
  have hs : (drawVertices viewport [g] rot true text page).scrolls =
      (g.vertices.map (drawTransform rot viewport.width viewport.height)).map
        (fun t => scrollToVertex t.x t.y 50) := by
    simp [drawVertices, hdraw, groupScrolls]
  exact ⟨hs, by rw [hs]⟩

/-- Witness for C6 (amended) on the counterexample's concrete group:
both scroll targets appear, in vertex order. -/
theorem drawVertices_scroll_single_group_witness :
    shouldDrawGroup ⟨PageTag.int 0, "k", [⟨1/10, 1/10⟩, ⟨9/10, 9/10⟩]⟩ 1 = true ∧
    (drawVertices ⟨100, 100, 1⟩
        [⟨PageTag.int 0, "k", [⟨1/10, 1/10⟩, ⟨9/10, 9/10⟩]⟩] 0 true "" 1).scrolls =
      [(0, 0), (40, 40)] := by
  have h := drawVertices_scroll_single_group ⟨100, 100, 1⟩
    ⟨PageTag.int 0, "k", [⟨1/10, 1/10⟩, ⟨9/10, 9/10⟩]⟩ 0 "" 1 (by decide)
  have h0 : normalizeRotation 0 = 0 := by decide
  refine ⟨by decide, ?_⟩
  rw [h.1]
  norm_num [drawTransform, h0, scrollToVertex]

/-- C7: every `drawVertices` call first clears the entire drawing
surface, and the groups contributing drawing operations are exactly
those whose page field is `"all"` or parses to `currentPage - 1`; the
page filter holds iff the tag is `"all"` or the numeric tag
`currentPage - 1`, so groups tagged to any other page contribute no
operations. -/
theorem drawVertices_clears_and_filters (viewport : Viewport)
    (groups : List VerticesGroup) (rot : Int) (scrollToView : Bool)
    (text : String) (page : Int) :
    (drawVertices viewport groups rot scrollToView text page).ops.head? =
      some (DrawOp.clearRect 0 0 viewport.width viewport.height) ∧
    (drawVertices viewport groups rot scrollToView text page).ops =
      DrawOp.clearRect 0 0 viewport.width viewport.height ::
        ((groups.filter (fun g => shouldDrawGroup g page)).map
          (groupOps rot viewport.width viewport.height text)).flatten ∧
    (∀ g, shouldDrawGroup g page = true ↔
      (g.page = PageTag.all ∨ g.page = PageTag.int (page - 1))) := by
  refine ⟨rfl, ?_, ?_⟩
  · simp only [drawVertices, List.cons.injEq, true_and]
    induction groups with
    | nil => rfl
    | cons g tl ih =>
      by_cases hg : shouldDrawGroup g page = true
      · simp [hg, List.filter_cons, ih]
      · simp only [Bool.not_eq_true] at hg
        simp [hg, List.filter_cons, ih]
  · intro g
    constructor
    · intro h
      cases hp : g.page with
      | int n =>
        have hn : n = page - 1 := by
          simpa [shouldDrawGroup, hp, isAllPage, parseIntPage] using h
        exact Or.inr (by rw [hn])
      | all => exact Or.inl rfl
      | other s =>
        simp [shouldDrawGroup, hp, isAllPage, parseIntPage] at h
    · intro h
      rcases h with h | h
      · simp [shouldDrawGroup, h, isAllPage]
      · simp [shouldDrawGroup, h, isAllPage, parseIntPage]

end SmartVerifica
